import Mathlib

/-!
Verification of the CSS-to-Tailwind conversion core of the
tailwindcss-mcp-server repository.

The conversion core lives in the UtilityMapperService class
(services/utility-mapper.ts): a write-once pair of maps (utilityMap,
cssPropertyMap) built by loadUtilityMappings, an exact-value matcher
(findBestUtilityMatch), an arbitrary-value synthesizer
(createArbitraryUtility), and the per-declaration bucketing loop of
convertCSSToTailwind.  JavaScript Map objects are embedded as insertion-
ordered association lists, the external postcss parser as an explicit
parameter producing either a parse error or a list of declarations.

The public entry point ConversionService.convertCSS (output-mode
formatting and the empty-input short-circuit) is not part of the source
tree; only its tests and callers are.  Those parts are modelled from the
specification, and are marked as such in their doc comments.
-/

namespace TailwindMCP

/-- A JavaScript Map embedded as an insertion-ordered association list;
get returns the value of the unique binding for the key, if any. -/
def mapGet {α : Type} (m : List (String × α)) (k : String) : Option α :=
  match m.find? (fun p => p.1 == k) with
  | some p => some p.2
  | none => none

/-- JavaScript Map.set: overwrite the binding in place when the key is
present (keeping its insertion position), otherwise append a new binding. -/
def mapSet {α : Type} (m : List (String × α)) (k : String) (v : α) : List (String × α) :=
  if m.any (fun p => p.1 == k) then
    m.map (fun p => if p.1 == k then (k, v) else p)
  else
    m ++ [(k, v)]

/-- UtilityValue (types/index.ts).  The field named class in the source is
called cls here because class is a reserved word in Lean. -/
structure UtilityValue where
  cls : String
  value : String
  isDefault : Bool
deriving Repr, DecidableEq

/-- UtilityCategory (types/index.ts). -/
structure UtilityCategory where
  id : String
  name : String
  description : String
  utilities : List String
deriving Repr, DecidableEq

/-- Example (types/index.ts): a documentation example attached to a utility. -/
structure UtilityExample where
  title : String
  code : String
  description : String
deriving Repr, DecidableEq

/-- TailwindUtility (types/index.ts), restricted to the fields the
conversion core reads; the modifiers field (presentation-only responsive
and state prefixes, never consulted by conversion) is omitted. -/
structure TailwindUtility where
  id : String
  name : String
  category : UtilityCategory
  cssProperty : String
  values : List UtilityValue
  examples : List UtilityExample
  documentation : String
deriving Repr, DecidableEq

/-- The two conversion-relevant maps owned by UtilityMapperService. -/
structure UtilityMapperState where
  utilityMap : List (String × TailwindUtility)
  cssPropertyMap : List (String × List String)
deriving Repr, DecidableEq

/-- UtilityMapperService.addUtility: registers one utility under its class
name and appends the class name to the property-to-classes map. -/
def addUtility (st : UtilityMapperState) (className cssProperty cssValue category : String) :
    UtilityMapperState :=
  let utility : TailwindUtility :=
    { id := className
      name := className
      category := { id := category, name := category, description := "", utilities := [] }
      cssProperty := cssProperty
      values := [{ cls := className, value := cssValue, isDefault := false }]
      examples := [{ title := "Using " ++ className
                     code := "<div class=\"" ++ className ++ "\">Content</div>"
                     description := "Applies " ++ cssProperty ++ ": " ++ cssValue }]
      documentation := "Sets " ++ cssProperty ++ " to " ++ cssValue }
  let utilityMap := mapSet st.utilityMap className utility
  let existingUtilities := (mapGet st.cssPropertyMap cssProperty).getD []
  let cssPropertyMap := mapSet st.cssPropertyMap cssProperty (existingUtilities ++ [className])
  { utilityMap := utilityMap, cssPropertyMap := cssPropertyMap }

/-- UtilityMapperService.loadUtilityMappings: the sequence of addUtility
calls executed at initialization, in source order. -/
def loadUtilityMappings (st : UtilityMapperState) : UtilityMapperState :=
  let st := addUtility st "m-0" "margin" "0" "spacing"
  let st := addUtility st "m-1" "margin" "0.25rem" "spacing"
  let st := addUtility st "m-2" "margin" "0.5rem" "spacing"
  let st := addUtility st "m-4" "margin" "1rem" "spacing"
  let st := addUtility st "m-8" "margin" "2rem" "spacing"
  let st := addUtility st "p-0" "padding" "0" "spacing"
  let st := addUtility st "p-1" "padding" "0.25rem" "spacing"
  let st := addUtility st "p-2" "padding" "0.5rem" "spacing"
  let st := addUtility st "p-4" "padding" "1rem" "spacing"
  let st := addUtility st "p-8" "padding" "2rem" "spacing"
  let st := addUtility st "w-auto" "width" "auto" "sizing"
  let st := addUtility st "w-full" "width" "100%" "sizing"
  let st := addUtility st "w-1/2" "width" "50%" "sizing"
  let st := addUtility st "w-1/3" "width" "33.333333%" "sizing"
  let st := addUtility st "h-auto" "height" "auto" "sizing"
  let st := addUtility st "h-full" "height" "100%" "sizing"
  let st := addUtility st "h-screen" "height" "100vh" "sizing"
  let st := addUtility st "block" "display" "block" "layout"
  let st := addUtility st "inline" "display" "inline" "layout"
  let st := addUtility st "flex" "display" "flex" "flexbox"
  let st := addUtility st "grid" "display" "grid" "grid"
  let st := addUtility st "hidden" "display" "none" "layout"
  let st := addUtility st "text-xs" "font-size" "0.75rem" "typography"
  let st := addUtility st "text-sm" "font-size" "0.875rem" "typography"
  let st := addUtility st "text-base" "font-size" "1rem" "typography"
  let st := addUtility st "text-lg" "font-size" "1.125rem" "typography"
  let st := addUtility st "text-xl" "font-size" "1.25rem" "typography"
  st

/-- The service state right after initialize(): the table the conversion
claims are evaluated against. -/
def initialState : UtilityMapperState :=
  loadUtilityMappings { utilityMap := [], cssPropertyMap := [] }

/-- Inner loop of findBestUtilityMatch: scan one utility's value pairs for
an exact (case-sensitive) string match of the CSS value. -/
def findValueMatch : List UtilityValue → String → Option String
  | [], _ => none
  | v :: rest, cssValue =>
    if v.value == cssValue then some v.cls else findValueMatch rest cssValue

/-- Outer loop of findBestUtilityMatch: walk the property's utility ids in
table order, resolving each id in the utility map. -/
def findInUtilities (st : UtilityMapperState) : List String → String → Option String
  | [], _ => none
  | utilityId :: rest, cssValue =>
    match mapGet st.utilityMap utilityId with
    | some utility =>
      match findValueMatch utility.values cssValue with
      | some c => some c
      | none => findInUtilities st rest cssValue
    | none => findInUtilities st rest cssValue

/-- UtilityMapperService.findBestUtilityMatch: first exact value match over
the property's utilities, in table order; none when no value matches. -/
def findBestUtilityMatch (st : UtilityMapperState) (cssProperty cssValue : String) :
    Option String :=
  let utilities := (mapGet st.cssPropertyMap cssProperty).getD []
  findInUtilities st utilities cssValue

/-- The propertyAbbreviations record literal inside createArbitraryUtility,
in source order. -/
def propertyAbbreviations : List (String × String) :=
  [("margin", "m"), ("padding", "p"), ("width", "w"), ("height", "h"),
   ("top", "top"), ("right", "right"), ("bottom", "bottom"), ("left", "left"),
   ("font-size", "text"), ("line-height", "leading"), ("color", "text"),
   ("background-color", "bg"), ("border-color", "border")]

/-- A character matched by the JavaScript regular-expression class backslash-s
(restricted to the code points CSS values actually contain). -/
def isJsWhitespace (c : Char) : Bool :=
  c = ' ' || c = '\t' || c = '\n' || c = '\r' || c = '\x0b' || c = '\x0c'

/-- Character-level loop of the whitespace-run replacement: inWs records
whether the previous character was part of a whitespace run. -/
def cleanValueChars : List Char → Bool → List Char
  | [], _ => []
  | c :: rest, inWs =>
    if isJsWhitespace c then
      if inWs then cleanValueChars rest true
      else '_' :: cleanValueChars rest true
    else
      c :: cleanValueChars rest false

/-- The value.replace of createArbitraryUtility: every maximal run of
whitespace becomes a single underscore. -/
def cleanCssValue (s : String) : String :=
  String.mk (cleanValueChars s.data false)

/-- UtilityMapperService.createArbitraryUtility: bracketed arbitrary-value
class when the property has an abbreviation, none otherwise. -/
def createArbitraryUtility (cssProperty cssValue : String) : Option String :=
  match mapGet propertyAbbreviations cssProperty with
  | some abbreviation => some (abbreviation ++ "-[" ++ cleanCssValue cssValue ++ "]")
  | none => none

/-- One parsed CSS declaration as handed to the walkDecls callback. -/
structure Decl where
  prop : String
  value : String
deriving Repr, DecidableEq

/-- The three accumulator arrays of convertCSSToTailwind. -/
structure ConversionOutcome where
  tailwindClasses : List String
  unsupportedStyles : List String
  suggestions : List String
deriving Repr, DecidableEq

/-- The body of the walkDecls callback in convertCSSToTailwind: route one
declaration into exactly one of the three accumulators. -/
def processDecl (st : UtilityMapperState) (acc : ConversionOutcome) (decl : Decl) :
    ConversionOutcome :=
  let utilities := mapGet st.cssPropertyMap decl.prop
  match utilities with
  | some us =>
    if us.length > 0 then
      match findBestUtilityMatch st decl.prop decl.value with
      | some matchingUtility =>
        { acc with tailwindClasses := acc.tailwindClasses ++ [matchingUtility] }
      | none =>
        match createArbitraryUtility decl.prop decl.value with
        | some arbitraryUtility =>
          { acc with
            tailwindClasses := acc.tailwindClasses ++ [arbitraryUtility]
            suggestions := acc.suggestions ++
              ["Consider using " ++ arbitraryUtility ++ " for " ++
               decl.prop ++ ": " ++ decl.value] }
        | none =>
          { acc with unsupportedStyles :=
              acc.unsupportedStyles ++ [decl.prop ++ ": " ++ decl.value] }
    else
      { acc with unsupportedStyles :=
          acc.unsupportedStyles ++ [decl.prop ++ ": " ++ decl.value] }
  | none =>
    { acc with unsupportedStyles :=
        acc.unsupportedStyles ++ [decl.prop ++ ": " ++ decl.value] }

/-- The whole walkDecls traversal: fold over the declarations in document
order, starting from empty accumulators. -/
def processDecls (st : UtilityMapperState) (decls : List Decl) : ConversionOutcome :=
  decls.foldl (processDecl st) ⟨[], [], []⟩

/-- Failure of the external postcss parser (CssSyntaxError). -/
structure ParseError where
  msg : String
deriving Repr, DecidableEq

/-- ServiceError (services/base.ts) as thrown by convertCSSToTailwind, with
the originating parser failure as cause. -/
structure ServiceError where
  message : String
  service : String
  operation : String
  cause : ParseError
deriving Repr, DecidableEq

/-- ConversionResult as returned by convertCSSToTailwind: optional fields
model the length-guarded undefined of the source. -/
structure ConversionResult where
  tailwindClasses : String
  unsupportedStyles : Option (List String)
  suggestions : Option (List String)
deriving Repr, DecidableEq

/-- The three output modes of the conversion tool. -/
inductive Mode where
  | classes
  | inlineAttr
  | component
deriving Repr, DecidableEq

/-- A CSS parser: the external collaborator (postcss) producing either the
declarations in document order or a syntax error. -/
def CssParser : Type := String → Except ParseError (List Decl)

/-- UtilityMapperService.convertCSSToTailwind: parse, bucket every
declaration, space-join the matched classes.  The mode parameter is
accepted and ignored, exactly as in the source.  A parser failure is
rethrown wrapped in a ServiceError. -/
def convertCSSToTailwind (parser : CssParser) (st : UtilityMapperState)
    (css : String) (_mode : Mode) : Except ServiceError ConversionResult :=
  match parser css with
  | Except.error e =>
    Except.error
      { message := "Failed to convert CSS to TailwindCSS"
        service := "UtilityMapperService"
        operation := "convertCSSToTailwind"
        cause := e }
  | Except.ok decls =>
    let o := processDecls st decls
    Except.ok
      { tailwindClasses := String.intercalate " " o.tailwindClasses
        unsupportedStyles := if o.unsupportedStyles.length > 0 then some o.unsupportedStyles else none
        suggestions := if o.suggestions.length > 0 then some o.suggestions else none }

/-- JavaScript String.prototype.trim over the whitespace class above. -/
def jsTrim (s : String) : String :=
  String.mk (((s.data.dropWhile isJsWhitespace).reverse.dropWhile isJsWhitespace).reverse)

/-- Modelled from the spec: OutputFormatter.format of the ConversionService
(services/conversion-service.ts is absent from the source tree; only its
tests and callers are present).  classes space-joins, inlineAttr wraps the
joined string in a class attribute, component emits a selector line, an
at-apply line over the joined classes, and a closing brace. -/
def formatOutput (matchedClasses : List String) (mode : Mode) : String :=
  let joined := String.intercalate " " matchedClasses
  match mode with
  | Mode.classes => joined
  | Mode.inlineAttr => "class=\"" ++ joined ++ "\""
  | Mode.component => ".component \x7b\n  @apply " ++ joined ++ ";\n\x7d"

/-- Modelled from the spec: ConversionService.convertCSS
(services/conversion-service.ts is absent from the source tree).  Empty or
all-whitespace css short-circuits without invoking the parser; otherwise
parse, bucket, and format the matched classes with the requested mode. -/
def convertCSS (parser : CssParser) (st : UtilityMapperState)
    (css : String) (mode : Mode) : Except ServiceError ConversionResult :=
  if jsTrim css = "" then
    Except.ok { tailwindClasses := "", unsupportedStyles := none,
                suggestions := some ["Provide some CSS to convert"] }
  else
    match parser css with
    | Except.error e =>
      Except.error
        { message := "Failed to convert CSS to TailwindCSS"
          service := "ConversionService"
          operation := "convertCSS"
          cause := e }
    | Except.ok decls =>
      let o := processDecls st decls
      Except.ok
        { tailwindClasses := formatOutput o.tailwindClasses mode
          unsupportedStyles := if o.unsupportedStyles.length > 0 then some o.unsupportedStyles else none
          suggestions := if o.suggestions.length > 0 then some o.suggestions else none }

/-- UtilityMapperService.convertCSSToTailwind as an explicit state
transformer.  The method body of the source reads this.cssPropertyMap and
this.utilityMap (through findBestUtilityMatch) and contains no assignment
to either map — the maps are written only by initialize (loadUtilityMappings)
and cleared by cleanup — so the state the call finishes with is the state
it started from. -/
def convertCSSToTailwindStateful (parser : CssParser) (st : UtilityMapperState)
    (css : String) (mode : Mode) :
    (Except ServiceError ConversionResult) × UtilityMapperState :=
  (convertCSSToTailwind parser st css mode, st)

/-- UtilityMapperService.cleanup: clears both maps. -/
def cleanup (_st : UtilityMapperState) : UtilityMapperState :=
  { utilityMap := [], cssPropertyMap := [] }

/-- The (class, value) pairs of one utility, in declaration order. -/
def valuePairs (u : TailwindUtility) : List (String × String) :=
  u.values.map (fun x => (x.cls, x.value))

/-- The flattened (class, value) pairs of a row of utility ids, in table
order; ids absent from the utility map contribute nothing. -/
def flatRow (st : UtilityMapperState) : List String → List (String × String)
  | [] => []
  | utilityId :: rest =>
    (match mapGet st.utilityMap utilityId with
     | some u => valuePairs u
     | none => []) ++ flatRow st rest

/-- All (class, value) pairs the table holds for one CSS property, in the
order findBestUtilityMatch scans them. -/
def tableRow (st : UtilityMapperState) (cssProperty : String) : List (String × String) :=
  flatRow st ((mapGet st.cssPropertyMap cssProperty).getD [])

theorem mapGet_mem {α : Type} {m : List (String × α)} {k : String} {v : α}
    (h : mapGet m k = some v) : (k, v) ∈ m := by
  induction m with
  | nil => simp [mapGet, List.find?] at h
  | cons a rest ih =>
    rcases a with ⟨k', v'⟩
    by_cases hk : k' = k
    · subst hk
      have he : mapGet ((k', v') :: rest) k' = some v' := by
        unfold mapGet
        rw [List.find?_cons_of_pos _ (by simp)]
      rw [he] at h
      have : v' = v := by simpa using h
      subst this
      exact List.mem_cons_self _ _
    · have he : mapGet ((k', v') :: rest) k = mapGet rest k := by
        unfold mapGet
        rw [List.find?_cons_of_neg _ (by simpa using hk)]
      rw [he] at h
      exact List.mem_cons_of_mem _ (ih h)

theorem findValueMatch_eq (values : List UtilityValue) (v : String) :
    findValueMatch values v =
      ((values.map (fun x => (x.cls, x.value))).find? (fun p => p.2 == v)).map Prod.fst := by
  induction values with
  | nil => rfl
  | cons x rest ih =>
    by_cases h : x.value = v
    · simp [findValueMatch, List.find?, h]
    · have hb : (x.value == v) = false := by simpa using h
      simp [findValueMatch, List.find?, hb, ih]

theorem findValueMatch_pairs (u : TailwindUtility) (v : String) :
    findValueMatch u.values v = ((valuePairs u).find? (fun p => p.2 == v)).map Prod.fst :=
  findValueMatch_eq u.values v

theorem findInUtilities_eq (st : UtilityMapperState) (uids : List String) (v : String) :
    findInUtilities st uids v = ((flatRow st uids).find? (fun p => p.2 == v)).map Prod.fst := by
  induction uids with
  | nil => rfl
  | cons uid rest ih =>
    cases hu : mapGet st.utilityMap uid with
    | none => simpa [findInUtilities, flatRow, hu] using ih
    | some u =>
      rw [show findInUtilities st (uid :: rest) v =
            (match findValueMatch u.values v with
             | some c => some c
             | none => findInUtilities st rest v) from by
        simp [findInUtilities, hu]]
      rw [show flatRow st (uid :: rest) = valuePairs u ++ flatRow st rest from by
        simp [flatRow, hu]]
      rw [List.find?_append]
      cases hf : (valuePairs u).find? (fun p => p.2 == v) with
      | none =>
        have h1 : findValueMatch u.values v = none := by
          rw [findValueMatch_pairs u v, hf]; rfl
        simpa [h1] using ih
      | some p =>
        have h1 : findValueMatch u.values v = some p.1 := by
          rw [findValueMatch_pairs u v, hf]; rfl
        simp [h1]

/-- C4.  Every declaration whose value exactly matches a table entry of its
property resolves to the first matching class in table order, never the
bracketed arbitrary-value form: findBestUtilityMatch is the first exact
match over the table row, a successful match is appended as-is by the
conversion loop, and in particular margin: 1rem resolves to m-4 (and the
single-declaration conversion yields exactly m-4, not m-[1rem]). -/
theorem exact_match_precedence :
    (∀ (st : UtilityMapperState) (cssProperty cssValue : String),
       findBestUtilityMatch st cssProperty cssValue =
         ((tableRow st cssProperty).find? (fun p => p.2 == cssValue)).map Prod.fst) ∧
    (∀ (st : UtilityMapperState) (acc : ConversionOutcome) (d : Decl) (c : String),
       findBestUtilityMatch st d.prop d.value = some c →
       processDecl st acc d = { acc with tailwindClasses := acc.tailwindClasses ++ [c] }) ∧
    findBestUtilityMatch initialState "margin" "1rem" = some "m-4" ∧
    processDecls initialState [⟨"margin", "1rem"⟩] = ⟨["m-4"], [], []⟩ := by
  refine ⟨?_, ?_, by decide, by decide⟩
  · intro st cssProperty cssValue
    exact findInUtilities_eq st _ cssValue
  · intro st acc d c h
    unfold processDecl
    cases hm : mapGet st.cssPropertyMap d.prop with
    | none =>
      exfalso
      rw [show findBestUtilityMatch st d.prop d.value = none from by
        simp [findBestUtilityMatch, hm, findInUtilities]] at h
      exact absurd h (by simp)
    | some us =>
      cases us with
      | nil =>
        exfalso
        rw [show findBestUtilityMatch st d.prop d.value = none from by
          simp [findBestUtilityMatch, hm, findInUtilities]] at h
        exact absurd h (by simp)
      | cons u₀ urest => simp [h]

/-- Witness for C4: the second conjunct applied to the loaded table at the
declaration margin: 1rem, whose first exact table match is m-4. -/
theorem exact_match_precedence_witness :
    processDecl initialState ⟨[], [], []⟩ ⟨"margin", "1rem"⟩ = ⟨["m-4"], [], []⟩ := by
  have h := exact_match_precedence.2.1 initialState ⟨[], [], []⟩ ⟨"margin", "1rem"⟩ "m-4"
    (by decide)
  exact h.trans (by decide)

theorem processDecl_append (st : UtilityMapperState) (acc : ConversionOutcome) (d : Decl) :
    processDecl st acc d =
      { tailwindClasses :=
          acc.tailwindClasses ++ (processDecl st ⟨[], [], []⟩ d).tailwindClasses
        unsupportedStyles :=
          acc.unsupportedStyles ++ (processDecl st ⟨[], [], []⟩ d).unsupportedStyles
        suggestions :=
          acc.suggestions ++ (processDecl st ⟨[], [], []⟩ d).suggestions } := by
  cases hm : mapGet st.cssPropertyMap d.prop with
  | none => simp [processDecl, hm]
  | some us =>
    by_cases hl : us.length > 0
    · cases hb : findBestUtilityMatch st d.prop d.value with
      | some c => simp [processDecl, hm, hl, hb]
      | none =>
        cases ha : createArbitraryUtility d.prop d.value with
        | some a => simp [processDecl, hm, hl, hb, ha]
        | none => simp [processDecl, hm, hl, hb, ha]
    · simp [processDecl, hm, hl]

theorem foldl_processDecl_eq (st : UtilityMapperState) (decls : List Decl) :
    ∀ acc : ConversionOutcome,
      decls.foldl (processDecl st) acc =
        { tailwindClasses := acc.tailwindClasses ++ (processDecls st decls).tailwindClasses
          unsupportedStyles := acc.unsupportedStyles ++ (processDecls st decls).unsupportedStyles
          suggestions := acc.suggestions ++ (processDecls st decls).suggestions } := by
  induction decls with
  | nil => intro acc; simp [processDecls]
  | cons d rest ih =>
    intro acc
    have h0 : processDecls st (d :: rest) = rest.foldl (processDecl st) (processDecl st ⟨[], [], []⟩ d) := by
      simp [processDecls, List.foldl]
    rw [show (d :: rest).foldl (processDecl st) acc = rest.foldl (processDecl st) (processDecl st acc d) from rfl]
    rw [ih (processDecl st acc d), h0, ih (processDecl st ⟨[], [], []⟩ d)]
    rw [processDecl_append st acc d]
    simp [List.append_assoc]

theorem processDecls_cons (st : UtilityMapperState) (d : Decl) (rest : List Decl) :
    processDecls st (d :: rest) =
      { tailwindClasses :=
          (processDecl st ⟨[], [], []⟩ d).tailwindClasses ++ (processDecls st rest).tailwindClasses
        unsupportedStyles :=
          (processDecl st ⟨[], [], []⟩ d).unsupportedStyles ++ (processDecls st rest).unsupportedStyles
        suggestions :=
          (processDecl st ⟨[], [], []⟩ d).suggestions ++ (processDecls st rest).suggestions } := by
  have h0 : processDecls st (d :: rest) = rest.foldl (processDecl st) (processDecl st ⟨[], [], []⟩ d) := by
    simp [processDecls, List.foldl]
  rw [h0, foldl_processDecl_eq st rest (processDecl st ⟨[], [], []⟩ d)]

theorem processDecl_single_total (st : UtilityMapperState) (d : Decl) :
    (processDecl st ⟨[], [], []⟩ d).tailwindClasses.length +
      (processDecl st ⟨[], [], []⟩ d).unsupportedStyles.length = 1 := by
  cases hm : mapGet st.cssPropertyMap d.prop with
  | none => simp [processDecl, hm]
  | some us =>
    by_cases hl : us.length > 0
    · cases hb : findBestUtilityMatch st d.prop d.value with
      | some c => simp [processDecl, hm, hl, hb]
      | none =>
        cases ha : createArbitraryUtility d.prop d.value with
        | some a => simp [processDecl, hm, hl, hb, ha]
        | none => simp [processDecl, hm, hl, hb, ha]
    · simp [processDecl, hm, hl]

/-- C3.  Every declaration contributes exactly one entry to exactly one
bucket (matched classes, which cover both exact and arbitrary-value
classes, or unsupported): over any table and any declaration sequence,
duplicates included, the bucket sizes sum to the number of declarations. -/
theorem declaration_totality (st : UtilityMapperState) (decls : List Decl) :
    (processDecls st decls).tailwindClasses.length +
      (processDecls st decls).unsupportedStyles.length = decls.length := by
  induction decls with
  | nil => simp [processDecls]
  | cons d rest ih =>
    rw [processDecls_cons st d rest]
    have h1 := processDecl_single_total st d
    simp only [List.length_append, List.length_cons]
    omega

/-- C8.  Conversion is deterministic and order preserving: two calls on the
same css string against the same table yield identical tailwindClasses
strings, and the matched classes are the concatenation, in declaration
order, of each declaration's own contribution. -/
theorem conversion_deterministic_order_preserving :
    (∀ (parser : CssParser) (st : UtilityMapperState) (css : String) (mode : Mode)
       (r₁ r₂ : ConversionResult),
       convertCSSToTailwind parser st css mode = Except.ok r₁ →
       convertCSSToTailwind parser st css mode = Except.ok r₂ →
       r₁.tailwindClasses = r₂.tailwindClasses) ∧
    (∀ (st : UtilityMapperState) (decls : List Decl),
       (processDecls st decls).tailwindClasses =
         (decls.map (fun d => (processDecl st ⟨[], [], []⟩ d).tailwindClasses)).flatten) := by
  constructor
  · intro parser st css mode r₁ r₂ h₁ h₂
    rw [h₁] at h₂
    have : r₁ = r₂ := by injection h₂
    rw [this]
  · intro st decls
    induction decls with
    | nil => simp [processDecls]
    | cons d rest ih => rw [processDecls_cons st d rest]; simp [ih]

/-- Witness for C8: the determinism conjunct applied to a concrete parser
and css string, both runs producing the matched class m-4. -/
theorem conversion_deterministic_witness :
    (ConversionResult.mk "m-4" none none).tailwindClasses =
      (ConversionResult.mk "m-4" none none).tailwindClasses :=
  conversion_deterministic_order_preserving.1
    (fun _ => Except.ok [⟨"margin", "1rem"⟩]) initialState ".x" Mode.classes
    ⟨"m-4", none, none⟩ ⟨"m-4", none, none⟩ rfl rfl

/-- C5.  A declaration whose property has table entries and an abbreviation
but whose value has no exact table match is resolved to exactly the class
abbreviation-[cleanedValue] (whitespace runs replaced by single
underscores), and the corresponding suggestion string is appended. -/
theorem arbitrary_value_fallback :
    (∀ (st : UtilityMapperState) (acc : ConversionOutcome) (prop value : String)
       (us : List String) (ab : String),
       mapGet st.cssPropertyMap prop = some us → us ≠ [] →
       mapGet propertyAbbreviations prop = some ab →
       findBestUtilityMatch st prop value = none →
       processDecl st acc ⟨prop, value⟩ =
         { acc with
           tailwindClasses :=
             acc.tailwindClasses ++ [ab ++ "-[" ++ cleanCssValue value ++ "]"]
           suggestions :=
             acc.suggestions ++
               ["Consider using " ++ (ab ++ "-[" ++ cleanCssValue value ++ "]") ++
                " for " ++ prop ++ ": " ++ value] }) ∧
    cleanCssValue "1.5rem 2" = "1.5rem_2" ∧
    cleanCssValue "1.75rem" = "1.75rem" := by
  refine ⟨?_, by decide, by decide⟩
  intro st acc prop value us ab hus hne hab hnone
  have hl : us.length > 0 := by
    cases us with
    | nil => exact absurd rfl hne
    | cons a rest => simp
  have harb : createArbitraryUtility prop value =
      some (ab ++ "-[" ++ cleanCssValue value ++ "]") := by
    simp [createArbitraryUtility, hab]
  simp [processDecl, hus, hl, hnone, harb]

/-- Witness for C5: margin with value 1.75rem (not in the table) resolves
to m-[1.75rem] and records the suggestion naming both the class and the
original declaration. -/
theorem arbitrary_value_fallback_witness :
    processDecl initialState ⟨[], [], []⟩ ⟨"margin", "1.75rem"⟩ =
      ⟨["m-[1.75rem]"], [], ["Consider using m-[1.75rem] for margin: 1.75rem"]⟩ := by
  have h := arbitrary_value_fallback.1 initialState ⟨[], [], []⟩ "margin" "1.75rem"
    ["m-0", "m-1", "m-2", "m-4", "m-8"] "m" (by decide) (by decide) (by decide) (by decide)
  exact h.trans (by decide)

/-- C6.  convertCSSToTailwind fails exactly when the external parser
rejects the input, and the failure is a single ServiceError carrying the
originating cause; every parseable input yields a ConversionResult, and an
unmapped property such as filter: blur(5px) is recorded verbatim in the
unsupported bucket, contributing no class and raising no error. -/
theorem error_iff_parse_failure :
    (∀ (parser : CssParser) (st : UtilityMapperState) (css : String) (mode : Mode)
       (e : ParseError),
       parser css = Except.error e →
       convertCSSToTailwind parser st css mode =
         Except.error
           { message := "Failed to convert CSS to TailwindCSS"
             service := "UtilityMapperService"
             operation := "convertCSSToTailwind"
             cause := e }) ∧
    (∀ (parser : CssParser) (st : UtilityMapperState) (css : String) (mode : Mode)
       (decls : List Decl),
       parser css = Except.ok decls →
       convertCSSToTailwind parser st css mode =
         Except.ok
           { tailwindClasses := String.intercalate " " (processDecls st decls).tailwindClasses
             unsupportedStyles :=
               if (processDecls st decls).unsupportedStyles.length > 0 then
                 some (processDecls st decls).unsupportedStyles
               else none
             suggestions :=
               if (processDecls st decls).suggestions.length > 0 then
                 some (processDecls st decls).suggestions
               else none }) ∧
    (∀ acc : ConversionOutcome,
       processDecl initialState acc ⟨"filter", "blur(5px)"⟩ =
         { acc with unsupportedStyles := acc.unsupportedStyles ++ ["filter: blur(5px)"] }) ∧
    (∀ (parser : CssParser) (st : UtilityMapperState) (css : String) (mode : Mode),
       (∃ err, convertCSSToTailwind parser st css mode = Except.error err) ↔
         (∃ e, parser css = Except.error e)) := by
  have herr : ∀ (parser : CssParser) (st : UtilityMapperState) (css : String) (mode : Mode)
      (e : ParseError),
      parser css = Except.error e →
      convertCSSToTailwind parser st css mode =
        Except.error
          { message := "Failed to convert CSS to TailwindCSS"
            service := "UtilityMapperService"
            operation := "convertCSSToTailwind"
            cause := e } := by
    intro parser st css mode e h
    simp [convertCSSToTailwind, h]
  have hok : ∀ (parser : CssParser) (st : UtilityMapperState) (css : String) (mode : Mode)
      (decls : List Decl),
      parser css = Except.ok decls →
      convertCSSToTailwind parser st css mode =
        Except.ok
          { tailwindClasses := String.intercalate " " (processDecls st decls).tailwindClasses
            unsupportedStyles :=
              if (processDecls st decls).unsupportedStyles.length > 0 then
                some (processDecls st decls).unsupportedStyles
              else none
            suggestions :=
              if (processDecls st decls).suggestions.length > 0 then
                some (processDecls st decls).suggestions
              else none } := by
    intro parser st css mode decls h
    simp [convertCSSToTailwind, h]
  refine ⟨herr, hok, ?_, ?_⟩
  · intro acc
    have hm : mapGet initialState.cssPropertyMap "filter" = none := by decide
    simp [processDecl, hm]
  · intro parser st css mode
    constructor
    · intro ⟨err, hconv⟩
      cases hp : parser css with
      | error e => exact ⟨e, rfl⟩
      | ok decls =>
        rw [hok parser st css mode decls hp] at hconv
        exact absurd hconv (by simp)
    · intro ⟨e, hp⟩
      exact ⟨_, herr parser st css mode e hp⟩

/-- Witness for C6: a parser rejecting the input produces the wrapped
ServiceError, a parser accepting a filter declaration produces a
ConversionResult whose only content is the verbatim unsupported entry. -/
theorem error_iff_parse_failure_witness :
    convertCSSToTailwind (fun _ => Except.error ⟨"Unclosed block"⟩) initialState
        ".el \x7b invalid-syntax \x7d" Mode.classes =
      Except.error
        { message := "Failed to convert CSS to TailwindCSS"
          service := "UtilityMapperService"
          operation := "convertCSSToTailwind"
          cause := ⟨"Unclosed block"⟩ } ∧
    convertCSSToTailwind (fun _ => Except.ok [⟨"filter", "blur(5px)"⟩]) initialState
        ".el \x7b filter: blur(5px); \x7d" Mode.classes =
      Except.ok { tailwindClasses := "", unsupportedStyles := some ["filter: blur(5px)"],
                  suggestions := none } := by
  constructor
  · exact error_iff_parse_failure.1 (fun _ => Except.error ⟨"Unclosed block"⟩) initialState
      ".el \x7b invalid-syntax \x7d" Mode.classes ⟨"Unclosed block"⟩ rfl
  · have h := error_iff_parse_failure.2.1 (fun _ => Except.ok [⟨"filter", "blur(5px)"⟩])
      initialState ".el \x7b filter: blur(5px); \x7d" Mode.classes
      [⟨"filter", "blur(5px)"⟩] rfl
    exact h.trans rfl

/-- C9.  The arbitrary-value fallback is reachable only for properties with
at least one table entry: a declaration whose property row is empty is
recorded as unsupported before createArbitraryUtility is ever consulted,
and every property of the abbreviation map that has no table entries
(color, background-color, border-color, line-height, top, right, bottom,
left) therefore always lands in the unsupported bucket. -/
theorem arbitrary_fallback_requires_table_entries :
    (∀ (st : UtilityMapperState) (acc : ConversionOutcome) (d : Decl),
       (mapGet st.cssPropertyMap d.prop).getD [] = [] →
       processDecl st acc d =
         { acc with unsupportedStyles :=
             acc.unsupportedStyles ++ [d.prop ++ ": " ++ d.value] }) ∧
    (∀ prop : String,
       prop ∈ ["color", "background-color", "border-color", "line-height",
               "top", "right", "bottom", "left"] →
       (mapGet propertyAbbreviations prop).isSome = true ∧
       mapGet initialState.cssPropertyMap prop = none ∧
       ∀ (acc : ConversionOutcome) (value : String),
         processDecl initialState acc ⟨prop, value⟩ =
           { acc with unsupportedStyles :=
               acc.unsupportedStyles ++ [prop ++ ": " ++ value] }) := by
  constructor
  · intro st acc d hrow
    cases hm : mapGet st.cssPropertyMap d.prop with
    | none => simp [processDecl, hm]
    | some us =>
      have : us = [] := by rw [hm] at hrow; simpa using hrow
      subst this
      simp [processDecl, hm]
  · intro prop hmem
    have habs : ∀ p : String, mapGet initialState.cssPropertyMap p = none →
        ∀ (acc : ConversionOutcome) (value : String),
          processDecl initialState acc ⟨p, value⟩ =
            { acc with unsupportedStyles :=
                acc.unsupportedStyles ++ [p ++ ": " ++ value] } := by
      intro p hp acc value
      simp [processDecl, hp]
    have hmem' : prop = "color" ∨ prop = "background-color" ∨ prop = "border-color" ∨
        prop = "line-height" ∨ prop = "top" ∨ prop = "right" ∨ prop = "bottom" ∨
        prop = "left" := by simpa using hmem
    rcases hmem' with h | h | h | h | h | h | h | h <;>
      (subst h; exact ⟨by decide, by decide, habs _ (by decide)⟩)

/-- Witness for C9: a color declaration is recorded verbatim as
unsupported even though color has the abbreviation text. -/
theorem arbitrary_fallback_requires_table_entries_witness :
    processDecl initialState ⟨[], [], []⟩ ⟨"color", "red"⟩ =
      ⟨[], ["color: red"], []⟩ := by
  have h := (arbitrary_fallback_requires_table_entries.2 "color" (by decide)).2.2
    ⟨[], [], []⟩ "red"
  exact h.trans (by decide)

/-- C10.  A conversion call never mutates the property table: the utility
map and the property-to-classes map after a call are those before it, so
repeated and interleaved conversion calls observe the same table and
return the same results as calls on the fresh table. -/
theorem conversion_preserves_table :
    (∀ (parser : CssParser) (st : UtilityMapperState) (css : String) (mode : Mode),
       (convertCSSToTailwindStateful parser st css mode).2.utilityMap = st.utilityMap ∧
       (convertCSSToTailwindStateful parser st css mode).2.cssPropertyMap = st.cssPropertyMap) ∧
    (∀ (parser₁ parser₂ : CssParser) (st : UtilityMapperState)
       (css₁ css₂ : String) (mode₁ mode₂ : Mode),
       (convertCSSToTailwindStateful parser₂
           (convertCSSToTailwindStateful parser₁ st css₁ mode₁).2 css₂ mode₂).1 =
         (convertCSSToTailwindStateful parser₂ st css₂ mode₂).1) := by
  exact ⟨fun _ _ _ _ => ⟨rfl, rfl⟩, fun _ _ _ _ _ _ _ => rfl⟩

/-- C7 counterexample.  A margin declaration with empty value does not end
in the unsupported bucket: the arbitrary-value path still fires on the
empty literal and synthesizes the class m-[] together with its suggestion. -/
theorem empty_value_unsupported_counterexample :
    processDecl initialState ⟨[], [], []⟩ ⟨"margin", ""⟩ =
      ⟨["m-[]"], [], ["Consider using m-[] for margin: "]⟩ ∧
    (processDecl initialState ⟨[], [], []⟩ ⟨"margin", ""⟩).unsupportedStyles = [] := by
  decide

/-- C7 as amended.  A declaration with empty value still goes through
resolution and never finds an exact table match (no table value is empty);
it ends in the unsupported bucket exactly when its property has no table
entries or no abbreviation, while a property with table entries and an
abbreviation (such as margin) gets the synthesized arbitrary class
abbreviation-[] and its suggestion instead. -/
theorem empty_value_routing :
    ∀ prop : String,
      findBestUtilityMatch initialState prop "" = none ∧
      (∀ acc : ConversionOutcome,
        ((mapGet initialState.cssPropertyMap prop).getD [] = [] ∨
            mapGet propertyAbbreviations prop = none →
          processDecl initialState acc ⟨prop, ""⟩ =
            { acc with unsupportedStyles := acc.unsupportedStyles ++ [prop ++ ": "] }) ∧
        (∀ (us : List String) (ab : String),
          mapGet initialState.cssPropertyMap prop = some us → us ≠ [] →
          mapGet propertyAbbreviations prop = some ab →
          processDecl initialState acc ⟨prop, ""⟩ =
            { acc with
              tailwindClasses := acc.tailwindClasses ++ [ab ++ "-[]"]
              suggestions := acc.suggestions ++
                ["Consider using " ++ (ab ++ "-[]") ++ " for " ++ prop ++ ": "] })) := by
  intro prop
  have htbl : initialState.cssPropertyMap =
      [("margin", ["m-0", "m-1", "m-2", "m-4", "m-8"]),
       ("padding", ["p-0", "p-1", "p-2", "p-4", "p-8"]),
       ("width", ["w-auto", "w-full", "w-1/2", "w-1/3"]),
       ("height", ["h-auto", "h-full", "h-screen"]),
       ("display", ["block", "inline", "flex", "grid", "hidden"]),
       ("font-size", ["text-xs", "text-sm", "text-base", "text-lg", "text-xl"])] := by
    decide
  have hnone : findBestUtilityMatch initialState prop "" = none := by
    cases hm : mapGet initialState.cssPropertyMap prop with
    | none => simp [findBestUtilityMatch, hm, findInUtilities]
    | some us =>
      have hmem := mapGet_mem hm
      rw [htbl] at hmem
      simp only [List.mem_cons, List.not_mem_nil, or_false, Prod.mk.injEq] at hmem
      rcases hmem with ⟨h1, _⟩ | ⟨h1, _⟩ | ⟨h1, _⟩ | ⟨h1, _⟩ | ⟨h1, _⟩ | ⟨h1, _⟩ <;>
        (subst h1; decide)
  refine ⟨hnone, ?_⟩
  intro acc
  constructor
  · intro hcase
    rcases hcase with hrow | hab
    · cases hm : mapGet initialState.cssPropertyMap prop with
      | none => simp [processDecl, hm]
      | some us =>
        have : us = [] := by rw [hm] at hrow; simpa using hrow
        subst this
        simp [processDecl, hm]
    · cases hm : mapGet initialState.cssPropertyMap prop with
      | none => simp [processDecl, hm]
      | some us =>
        by_cases hl : us.length > 0
        · simp [processDecl, hm, hl, hnone, createArbitraryUtility, hab]
        · simp [processDecl, hm, hl]
  · intro us ab hm hne hab
    have hl : us.length > 0 := by
      cases us with
      | nil => exact absurd rfl hne
      | cons a rest => simp
    have harb : createArbitraryUtility prop "" = some (ab ++ "-[]") := by
      have hclean : cleanCssValue "" = "" := rfl
      have h2 : ("-[" : String) ++ "]" = "-[]" := rfl
      simp [createArbitraryUtility, hab, hclean, String.append_assoc, h2]
    simp [processDecl, hm, hl, hnone, harb]

/-- Witness for C7 as amended: margin (table entries and abbreviation m)
with empty value synthesizes m-[], while clip-path (no table entries) with
empty value is recorded as unsupported. -/
theorem empty_value_routing_witness :
    processDecl initialState ⟨[], [], []⟩ ⟨"margin", ""⟩ =
      ⟨["m-[]"], [], ["Consider using m-[] for margin: "]⟩ ∧
    processDecl initialState ⟨[], [], []⟩ ⟨"clip-path", ""⟩ =
      ⟨[], ["clip-path: "], []⟩ := by
  constructor
  · have h := ((empty_value_routing "margin").2 ⟨[], [], []⟩).2
      ["m-0", "m-1", "m-2", "m-4", "m-8"] "m" (by decide) (by decide) (by decide)
    exact h.trans (by decide)
  · have h := ((empty_value_routing "clip-path").2 ⟨[], [], []⟩).1 (Or.inl (by decide))
    exact h.trans (by decide)

/-- C1.  Output-mode formatting (modelled from the spec, see formatOutput):
classes space-joins the matched classes, inlineAttr wraps the joined string
as a class attribute, component emits a selector line, the at-apply line
over the joined classes, and a closing brace; on the matched classes flex
and justify-center the three modes produce exactly the strings the claim
lists, and the entry point convertCSS applies the requested mode to the
matched classes of the parsed declarations. -/
theorem conversion_mode_formatting :
    formatOutput ["flex", "justify-center"] Mode.classes = "flex justify-center" ∧
    formatOutput ["flex", "justify-center"] Mode.inlineAttr = "class=\"flex justify-center\"" ∧
    formatOutput ["flex", "justify-center"] Mode.component =
      ".component \x7b\n  @apply flex justify-center;\n\x7d" ∧
    (∀ cs : List String, formatOutput cs Mode.classes = String.intercalate " " cs) ∧
    (∀ cs : List String,
       formatOutput cs Mode.inlineAttr = "class=\"" ++ String.intercalate " " cs ++ "\"") ∧
    (∀ cs : List String,
       formatOutput cs Mode.component =
         ".component \x7b\n  @apply " ++ String.intercalate " " cs ++ ";\n\x7d") ∧
    (∀ (parser : CssParser) (st : UtilityMapperState) (css : String) (mode : Mode)
       (decls : List Decl),
       jsTrim css ≠ "" → parser css = Except.ok decls →
       convertCSS parser st css mode =
         Except.ok
           { tailwindClasses := formatOutput (processDecls st decls).tailwindClasses mode
             unsupportedStyles :=
               if (processDecls st decls).unsupportedStyles.length > 0 then
                 some (processDecls st decls).unsupportedStyles
               else none
             suggestions :=
               if (processDecls st decls).suggestions.length > 0 then
                 some (processDecls st decls).suggestions
               else none }) := by
  refine ⟨rfl, rfl, rfl, fun cs => rfl, fun cs => rfl, fun cs => rfl, ?_⟩
  intro parser st css mode decls hcss hok
  simp [convertCSS, hcss, hok]

/-- Witness for C1: the entry-point conjunct applied to a parser yielding a
single display: flex declaration, formatted in inlineAttr mode. -/
theorem conversion_mode_formatting_witness :
    convertCSS (fun _ => Except.ok [⟨"display", "flex"⟩]) initialState
        ".x \x7b display: flex; \x7d" Mode.inlineAttr =
      Except.ok { tailwindClasses := "class=\"flex\"", unsupportedStyles := none,
                  suggestions := none } := by
  have h := conversion_mode_formatting.2.2.2.2.2.2
    (fun _ => Except.ok [⟨"display", "flex"⟩]) initialState
    ".x \x7b display: flex; \x7d" Mode.inlineAttr [⟨"display", "flex"⟩]
    (by decide) rfl
  exact h.trans rfl

/-- C2.  Empty or all-whitespace css short-circuits (modelled from the
spec, see convertCSS): the result is the empty class string with the single
suggestion Provide some CSS to convert, no unsupportedStyles, and the
parser is never consulted — the result is the same for every parser. -/
theorem empty_input_short_circuit :
    (∀ css : String, jsTrim css = "" →
       ∀ (parser : CssParser) (st : UtilityMapperState) (mode : Mode),
         convertCSS parser st css mode =
           Except.ok { tailwindClasses := "", unsupportedStyles := none,
                       suggestions := some ["Provide some CSS to convert"] }) ∧
    (∀ css : String, jsTrim css = "" →
       ∀ (parser₁ parser₂ : CssParser) (st : UtilityMapperState) (mode : Mode),
         convertCSS parser₁ st css mode = convertCSS parser₂ st css mode) := by
  have h1 : ∀ css : String, jsTrim css = "" →
      ∀ (parser : CssParser) (st : UtilityMapperState) (mode : Mode),
        convertCSS parser st css mode =
          Except.ok { tailwindClasses := "", unsupportedStyles := none,
                      suggestions := some ["Provide some CSS to convert"] } := by
    intro css h parser st mode
    simp [convertCSS, h]
  exact ⟨h1, fun css h p₁ p₂ st mode => (h1 css h p₁ st mode).trans (h1 css h p₂ st mode).symm⟩

/-- Witness for C2: the short-circuit applied to the empty string and to a
whitespace-only string, with a parser that would fail if it were invoked. -/
theorem empty_input_short_circuit_witness :
    convertCSS (fun _ => Except.error ⟨"must not be invoked"⟩) initialState "" Mode.classes =
      Except.ok { tailwindClasses := "", unsupportedStyles := none,
                  suggestions := some ["Provide some CSS to convert"] } ∧
    convertCSS (fun _ => Except.error ⟨"must not be invoked"⟩) initialState "   \n\t " Mode.classes =
      Except.ok { tailwindClasses := "", unsupportedStyles := none,
                  suggestions := some ["Provide some CSS to convert"] } := by
  constructor
  · exact empty_input_short_circuit.1 "" (by decide)
      (fun _ => Except.error ⟨"must not be invoked"⟩) initialState Mode.classes
  · exact empty_input_short_circuit.1 "   \n\t " (by decide)
      (fun _ => Except.error ⟨"must not be invoked"⟩) initialState Mode.classes

end TailwindMCP
